import Mathlib

/-!
Shallow embedding of the Urho3D-Blender exporter core (files `utils.py` and
`__init__.py`) and proofs about its specification.

Strings are modelled as lists of character codepoints (`List Nat`); the
Python regex class `\w` is Unicode-aware and is embedded exactly for all
codepoints below 256 (ASCII and Latin-1).  Python exceptions are modelled
with `Except`; the mutable option/state records are passed explicitly.
-/

namespace Urho

/-- Strings as lists of codepoints (Python `ord` values). -/
abbrev Str := List Nat

/-- Enumeration `PathType` from `utils.py` (the string tags are irrelevant,
only identity matters). -/
inductive PathType where
  | root | models | animations | triggers | materials
  | techniques | textures | matlist | objects | scenes
deriving DecidableEq, Repr

/-- Default extension table `FOptions.exts` from `utils.py` ("mdl", "ani",
"xml", "png", "txt"); the dict has no entry for ROOT, modelled as `[]`
(it is never queried for ROOT). -/
def defaultExts : PathType → Str
  | .models => [109, 100, 108]
  | .animations => [97, 110, 105]
  | .triggers => [120, 109, 108]
  | .materials => [120, 109, 108]
  | .techniques => [120, 109, 108]
  | .textures => [112, 110, 103]
  | .matlist => [116, 120, 116]
  | .objects => [120, 109, 108]
  | .scenes => [120, 109, 108]
  | .root => []

/-- Options record `FOptions` from `utils.py`.  `paths` maps a category to
the configured directory segment (the ROOT entry stands for the normalized
absolute output root). -/
structure FOptions where
  useSubDirs : Bool := true
  fileOverwrite : Bool := false
  paths : PathType → Str := fun _ => []
  exts : PathType → Str := defaultExts
  preserveExtTemp : Bool := false

/-- Python 3 regex `\w` on a `str` pattern: Unicode word characters, that
is alphanumerics (letter, decimal digit, digit or numeric character) plus
the underscore.  Embedded exactly for every codepoint below 256: the
ASCII part is `[A-Za-z0-9_]`, and the Latin-1 word characters are
`ª ² ³ µ ¹ º ¼ ½ ¾` (170, 178, 179, 181, 185, 186, 188, 189, 190) and the
letters 192-214, 216-246, 248-255 (215 `×` and 247 `÷` are excluded).
Codepoints at or above 256 are outside the modelled repertoire. -/
def isWordChar (c : Nat) : Bool :=
  decide ((65 ≤ c ∧ c ≤ 90) ∨ (97 ≤ c ∧ c ≤ 122) ∨ (48 ≤ c ∧ c ≤ 57) ∨ c = 95
    ∨ c = 170 ∨ c = 178 ∨ c = 179 ∨ c = 181 ∨ c = 185 ∨ c = 186
    ∨ c = 188 ∨ c = 189 ∨ c = 190
    ∨ (192 ≤ c ∧ c ≤ 214) ∨ (216 ≤ c ∧ c ≤ 246) ∨ (248 ≤ c ∧ c ≤ 255))

/-- Membership in the regex character class of
`re.sub('[^\w_.)( -]', '_', name)` in `GetFilepath` (`utils.py`):
a word char, or one of `_` `.` `)` `(` space `-`. -/
def isKeptChar (c : Nat) : Bool :=
  isWordChar c ||
    decide (c = 95 ∨ c = 46 ∨ c = 41 ∨ c = 40 ∨ c = 32 ∨ c = 45)

/-- The substitution `re.sub('[^\w_.)( -]', '_', name)`: every character
outside the class becomes `_` (codepoint 95). -/
def reSubInvalid (s : Str) : Str :=
  s.map (fun c => if isKeptChar c then c else 95)

/-- Argument of `GetFilepath`: the Python code may receive a single string
or a sequence of path segments. -/
inductive NameArg where
  | str (s : Str)
  | seq (segs : List Str)

/-- Python exceptions relevant to the embedding. -/
inductive PyErr where
  | typeError
deriving DecidableEq, Repr

/-- Codepoint of `os.path.extsep`, the dot. -/
def extsep : Nat := 46

/-- Codepoint of the forward slash used for the engine-relative path. -/
def slash : Nat := 47

/-- Filename computation of `GetFilepath` (`utils.py` lines 133-143): the
sanitized name, with `os.path.extsep` plus the category extension appended
unless `preserveExtTemp` is set and the sanitized name already contains
`os.path.extsep`.  (The source also tests `type(filename) is list or
tuple` between the two steps; that test is dead, `re.sub` always returns
a string.) -/
def resolvedFilename (pathType : PathType) (s : Str) (f : FOptions) : Str :=
  let filename : Str := reSubInvalid s
  let ext : Str := f.exts pathType
  if ext ≠ [] ∧ (f.preserveExtTemp = false ∨ extsep ∉ filename) then
    filename ++ extsep :: ext
  else filename

/-- Body of `GetFilepath` (`utils.py`) for a string argument.  The root path
(after `bpy.path.abspath` and `os.path.normpath`, opaque host utilities) is
the configured ROOT segment; with `useSubDirs` the category subfolder is
appended.  The filename is `resolvedFilename`; `preserveExtTemp` is reset
to `false` in every call.  Returns `((fileFullPath, fileUrhoPath), updated
options)`, the full path as a segment list and the engine path joined with
forward slashes (`os.path.relpath` against the root drops the root
segment). -/
def getFilepathStr (pathType : PathType) (s : Str) (f : FOptions) :
    (List Str × Str) × FOptions :=
  let rootPath : Str := f.paths .root
  let fullPath : List Str :=
    if f.useSubDirs then [rootPath, f.paths pathType] else [rootPath]
  let filename : Str := resolvedFilename pathType s f
  let fOut : FOptions := { f with preserveExtTemp := false }
  let fileFullPath : List Str := fullPath ++ [filename]
  let fileUrhoPath : Str :=
    List.intercalate [slash]
      ((if f.useSubDirs then [f.paths pathType] else []) ++ [filename])
  ((fileFullPath, fileUrhoPath), fOut)

/-- `GetFilepath` from `utils.py`.  The first statement applied to `name`
is `re.sub('[^\w_.)( -]', '_', name)`; Python `re.sub` raises `TypeError`
when its string argument is a list or tuple, so a sequence argument fails
before the (dead) join branch is reached. -/
def GetFilepath (pathType : PathType) (name : NameArg) (f : FOptions) :
    Except PyErr ((List Str × Str) × FOptions) :=
  match name with
  | .seq _ => .error .typeError
  | .str s => .ok (getFilepathStr pathType s f)

/-- Filesystem state for `CheckFilepath` and the writers: existing
directories and files as segment-list paths, plus an environment flag
telling whether `os.makedirs` raises for this run. -/
structure FSState where
  dirs : List (List Str) := []
  files : List (List Str) := []
  mkdirFails : Bool := false
deriving DecidableEq, Repr

/-- The `os.makedirs` step of `CheckFilepath`: when the parent directory
is missing, try to create it; a creation failure (`mkdirFails`) is logged
and swallowed, leaving the filesystem unchanged. -/
def mkParentDirs (dir : List Str) (fs : FSState) : FSState :=
  if dir ∈ fs.dirs then fs
  else if fs.mkdirFails then fs
  else { fs with dirs := dir :: fs.dirs }

/-- `CheckFilepath` from `utils.py`: create the parent directory when
missing (a creation failure is logged and swallowed), then fail exactly
when the target file already exists and `fileOverwrite` is off.  Returns
the boolean result and the (possibly extended) filesystem. -/
def CheckFilepath (p : List Str) (f : FOptions) (fs : FSState) :
    Bool × FSState :=
  let fs1 := mkParentDirs p.dropLast fs
  if p ∈ fs1.files ∧ f.fileOverwrite = false then (false, fs1)
  else (true, fs1)

/-- `SDBMHash` from `utils.py`: fold
`hash = ord(c) + (hash << 6) + (hash << 16) - hash` over the characters
(Python unbounded ints, shifts are exact multiplications by powers of two),
then mask the final value with `0xFFFFFFFF` (Python `&` on a nonnegative
int is the remainder modulo 2^32). -/
def SDBMHash (key : Str) : Int :=
  (key.foldl (fun (h : Int) (c : Nat) => (c : Int) + h * 2 ^ 6 + h * 2 ^ 16 - h) 0) % 4294967296

/-- Error ledger `ErrorsMem` from `utils.py`: `errors` is the dict from
category name to bucket (buckets are the lists of pairs accumulated during
decomposition), `seconds` the intern table of second keys. -/
structure ErrorsMem where
  errors : List (Str × List (Nat × Nat)) := []
  seconds : List Str := []
deriving DecidableEq, Repr

/-- Method `ErrorsMem.Delete`: `if name in errors: del errors[name]`. -/
def ErrorsMem.Delete (m : ErrorsMem) (name : Str) : ErrorsMem :=
  { m with errors := m.errors.filter (fun p => p.1 ≠ name) }

/-- Method `ErrorsMem.Cleanup`: collect the names whose bucket is falsy
(for list buckets: empty), then delete each collected name. -/
def ErrorsMem.Cleanup (m : ErrorsMem) : ErrorsMem :=
  let emptyList : List Str :=
    (m.errors.filter (fun p => p.2.isEmpty)).map Prod.fst
  emptyList.foldl (fun acc n => acc.Delete n) m

/-- Method `ErrorsMem.Clear`: `errors.clear(); seconds.clear()`. -/
def ErrorsMem.Clear (_ : ErrorsMem) : ErrorsMem :=
  { errors := [], seconds := [] }

/-! LOD-set list operators from `__init__.py`. -/

/-- World-level LOD state: `bpy.data.worlds[0].lodset_counter` and the
`lodsets` collection (only the `lodset_id` of each set matters here). -/
structure World where
  lodset_counter : Nat := 0
  lodsets : List Nat := []
deriving DecidableEq, Repr

/-- `nextLodSetIDX` from `__init__.py`: increment the counter and return
the new value. -/
def nextLodSetIDX (w : World) : Nat × World :=
  let new_idx := w.lodset_counter + 1
  (new_idx, { w with lodset_counter := new_idx })

/-- `OpCreateLodSet` from `__init__.py`: add a new set whose
`lodset_id` is `nextLodSetIDX()`. -/
def OpCreateLodSet (w : World) : World :=
  let r := nextLodSetIDX w
  { r.2 with lodsets := r.2.lodsets ++ [r.1] }

/-- `OpDeleteLodSet` from `__init__.py`: remove the set at the index of
the active object's set; the counter is untouched. -/
def OpDeleteLodSet (i : Nat) (w : World) : World :=
  { w with lodsets := w.lodsets.eraseIdx i }

/-- One session operation on the LOD-set list. -/
inductive LodOp where
  | create
  | delete (i : Nat)

/-- Run a sequence of LOD-set operations; also return the list of ids
issued by the create operations, in order. -/
def runLodOps : World → List LodOp → World × List Nat
  | w, [] => (w, [])
  | w, .create :: ops =>
      let w1 := OpCreateLodSet w
      let r := runLodOps w1 ops
      (r.1, (w.lodset_counter + 1) :: r.2)
  | w, .delete i :: ops => runLodOps (OpDeleteLodSet i w) ops

/-! Export orchestration from `__init__.py` (`ExecuteUrhoExport`): mesh
name resolution and the dedup-gated geometry write. -/

/-- The fields of a scene object (`bpy.data.objects[...]`) read during
mesh-name resolution. -/
structure SceneObj where
  name : Str
  isEmptyType : Bool
  isWire : Bool
  lodsetID : Int
  dataName : Str
deriving DecidableEq, Repr

/-- The options read by the resolution and write gate:
`sOptions.wiredAsEmpty` and `tOptions.meshNameDerivedBy == 'Object'`. -/
structure ExpOptions where
  wiredAsEmpty : Bool := false
  meshNameDerivedByObject : Bool := true
deriving DecidableEq, Repr

/-- One `uModel` of a decomposed unit, with the owning unit's `hasLODs`
flag and the number of geometries (`uModel.geometries` truthiness). -/
structure UnitModel where
  name : Str
  hasLODs : Bool := false
  geometries : Nat := 1
deriving DecidableEq, Repr

/-- The `try`/`except` block of `ExecuteUrhoExport` that resolves
`uModel.meshName` and `uModel.isEmpty`.  Returns
`(obj, meshName, isEmpty)`: `obj` is `None` exactly when the lookup
`bpy.data.objects[uModel.name]` raised; when the object is found but its
`lodsetID` points to no set, `getLodSetWithID` returns `None` and
`lodset.name` raises, so the `except` branch sets
`meshName = uModel.name` and `isEmpty = False` while `obj` stays bound. -/
def resolveModel (scene : List SceneObj) (lodsets : List (Int × Str))
    (o : ExpOptions) (uName : Str) : Option SceneObj × Str × Bool :=
  match scene.find? (fun ob => ob.name = uName) with
  | none => (none, uName, false)
  | some ob =>
    let isEmpty := ob.isEmptyType || (o.wiredAsEmpty && ob.isWire)
    if isEmpty then (some ob, ob.name, true)
    else if 0 < ob.lodsetID then
      match lodsets.find? (fun p => p.1 = ob.lodsetID) with
      | some p => (some ob, p.2, false)
      | none => (some ob, uName, false)
    else if o.meshNameDerivedByObject then (some ob, uName, false)
    else (some ob, ob.dataName, false)

/-- Resolved object of a unit name (projection of `resolveModel`). -/
def resolvedObj (scene : List SceneObj) (lodsets : List (Int × Str))
    (o : ExpOptions) (uName : Str) : Option SceneObj :=
  (resolveModel scene lodsets o uName).1

/-- Resolved mesh name of a unit name (projection of `resolveModel`). -/
def resolvedMeshName (scene : List SceneObj) (lodsets : List (Int × Str))
    (o : ExpOptions) (uName : Str) : Str :=
  (resolveModel scene lodsets o uName).2.1

/-- Resolved `isEmpty` of a unit name (projection of `resolveModel`). -/
def resolvedIsEmpty (scene : List SceneObj) (lodsets : List (Int × Str))
    (o : ExpOptions) (uName : Str) : Bool :=
  (resolveModel scene lodsets o uName).2.2

/-- `UrhoWriteModel`: creates (or overwrites) the file at the path. -/
def UrhoWriteModel (p : List Str) (fs : FSState) : FSState :=
  { fs with files := if p ∈ fs.files then fs.files else p :: fs.files }

/-- Run-scoped export state: the filesystem, the `processedMeshes` list
and the mutable `fOptions`. -/
structure ExpState where
  fs : FSState := {}
  processed : List Str := []
  fOptions : FOptions := {}

/-- The per-`uModel` body of the export loop of `ExecuteUrhoExport`:
resolve the mesh name, resolve the MODELS path, then
`if obj==None or (not uModel.isEmpty and (not uModel.meshName in
processedMeshes or tData.hasLODs))`, and inside it write the model iff it
has geometries and `CheckFilepath` passes, appending the mesh name to
`processedMeshes` after a write.  Returns the new state and whether the
model file was written. -/
def exportModelStep (scene : List SceneObj) (lodsets : List (Int × Str))
    (o : ExpOptions) (st : ExpState) (u : UnitModel) : ExpState × Bool :=
  let r := resolveModel scene lodsets o u.name
  let obj := r.1
  let meshName := r.2.1
  let isEmpty := r.2.2
  let fpr := getFilepathStr .models meshName st.fOptions
  let filepath := fpr.1.1
  let f1 := fpr.2
  if obj = none ∨ (isEmpty = false ∧ (meshName ∉ st.processed ∨ u.hasLODs = true)) then
    if 0 < u.geometries then
      let cr := CheckFilepath filepath f1 st.fs
      if cr.1 then
        ({ fs := UrhoWriteModel filepath cr.2,
           processed := st.processed ++ [meshName], fOptions := f1 }, true)
      else ({ st with fs := cr.2, fOptions := f1 }, false)
    else ({ st with fOptions := f1 }, false)
  else ({ st with fOptions := f1 }, false)

/-- The export loop over the decomposed units, returning the final state
and the per-unit write flags. -/
def runExport (scene : List SceneObj) (lodsets : List (Int × Str))
    (o : ExpOptions) : ExpState → List UnitModel → ExpState × List Bool
  | st, [] => (st, [])
  | st, u :: us =>
      let r := exportModelStep scene lodsets o st u
      let rest := runExport scene lodsets o r.1 us
      (rest.1, r.2 :: rest.2)

/-! Temporary LOD object lifecycle (`ExecuteUrhoExport` creation loop and
the removal loop of `ExecuteAddon`). -/

/-- A scene object as far as the temp-object lifecycle is concerned:
an identity and its `lodsetID` property (the sentinel value is `-2`). -/
structure BObj where
  id : Nat
  lodsetID : Int
deriving DecidableEq, Repr

/-- Scene-level state for the lifecycle: linked objects, the module-level
`tempObjects` list (object identities), and a fresh-identity counter. -/
structure SceneState where
  objs : List BObj := []
  tempObjects : List Nat := []
  nextId : Nat := 0
deriving DecidableEq, Repr

/-- The creation loop of `ExecuteUrhoExport`: for every LOD entry that has
a mesh (`lod.meshObj`), create a new object, mark it with
`lodsetID = -2`, append it to `tempObjects` and link it into the scene
collection.  Entries without a mesh are skipped. -/
def createTempObjects : List Bool → SceneState → SceneState
  | [], s => s
  | hasMesh :: rest, s =>
      createTempObjects rest
        (if hasMesh then
          { objs := s.objs ++ [⟨s.nextId, -2⟩],
            tempObjects := s.tempObjects ++ [s.nextId],
            nextId := s.nextId + 1 }
         else s)

/-- Control-flow skeleton of `ExecuteUrhoExport` for the lifecycle:
the validation returns `False` before any temp object exists (version or
output-path check); otherwise the temp objects are created and the
pipeline runs.  `stageRaises` models an unguarded exception in a later
stage (for example the `bpy.data.images[textureName]` lookup in the
texture loop, which raises `KeyError` for an unknown name); the function
is not wrapped in any `try`, so the exception propagates with the scene
state as mutated so far. -/
def executeUrhoExport (validateOk : Bool) (specs : List Bool)
    (stageRaises : Bool) (s : SceneState) : Except Unit Bool × SceneState :=
  if validateOk = false then (.ok false, s)
  else
    let s1 := createTempObjects specs s
    if stageRaises then (.error (), s1) else (.ok true, s1)

/-- The removal loop of `ExecuteAddon`:
`bpy.data.objects.remove(tempObj, do_unlink=True)` for every registered
temp object, then `tempObjects.clear()`. -/
def removeTempObjects (s : SceneState) : SceneState :=
  { objs := s.objs.filter (fun ob => ob.id ∉ s.tempObjects),
    tempObjects := [], nextId := s.nextId }

/-- `ExecuteAddon` from `__init__.py`: call `ExecuteUrhoExport`, then run
the removal loop.  The call is not inside a `try`/`finally`, so when the
export raises, the statements after it (the removal loop and the clear)
do not run and the exception propagates. -/
def executeAddon (validateOk : Bool) (specs : List Bool)
    (stageRaises : Bool) (s : SceneState) : Except Unit Unit × SceneState :=
  match executeUrhoExport validateOk specs stageRaises s with
  | (.error e, s1) => (.error e, s1)
  | (.ok _, s1) => (.ok (), removeTempObjects s1)

/-- Number of sentinel-marked objects linked in the scene. -/
def sentinelCount (s : SceneState) : Nat :=
  (s.objs.filter (fun ob => ob.lodsetID = -2)).length

/-! Theorems. -/

/-- Fold written from the wording of the spec (section 4.5): the SDBM
recurrence folded over every character starting from 0, with the shifts
expanded to their exact values on unbounded integers. -/
def sdbmSpecFold (key : Str) : Int :=
  key.foldl (fun (h : Int) (c : Nat) => (c : Int) + h * 64 + h * 65536 - h) 0

/-- C3: `SDBMHash` equals the spec fold masked to 32 bits, the hash of the
empty string is 0 (and of "A" is 65), and every hash value lies in
`[0, 2^32)`.  The function is pure, so its value on a fixed input is the
same on every invocation. -/
theorem SDBMHash_matches_spec :
    (∀ key : Str, SDBMHash key = sdbmSpecFold key % 4294967296)
    ∧ SDBMHash [] = 0
    ∧ SDBMHash [65] = 65
    ∧ (∀ key : Str, 0 ≤ SDBMHash key ∧ SDBMHash key < 4294967296) := by
  have hfun : (fun (h : Int) (c : Nat) => (c : Int) + h * 2 ^ 6 + h * 2 ^ 16 - h)
      = fun (h : Int) (c : Nat) => (c : Int) + h * 64 + h * 65536 - h := by
    funext h c
    norm_num
  refine ⟨fun key => ?_, by decide, by decide,
    fun key => ⟨Int.emod_nonneg _ (by norm_num), Int.emod_lt_of_pos _ (by norm_num)⟩⟩
  unfold SDBMHash sdbmSpecFold
  rw [hfun]

/-- The character class written from the spec words: `[A-Za-z0-9_.)( -]`. -/
def specAllowedChar (c : Nat) : Bool :=
  decide ((65 ≤ c ∧ c ≤ 90) ∨ (97 ≤ c ∧ c ≤ 122) ∨ (48 ≤ c ∧ c ≤ 57)
    ∨ c = 95 ∨ c = 46 ∨ c = 41 ∨ c = 40 ∨ c = 32 ∨ c = 45)

/-- The regex class of the source and the class written from the spec
agree on every ASCII codepoint (below 128), where `\w` is exactly
`[A-Za-z0-9_]`. -/
theorem isKeptChar_eq_specAllowedChar_of_ascii (c : Nat) (h : c < 128) :
    isKeptChar c = specAllowedChar c := by
  rw [Bool.eq_iff_iff]
  simp only [isKeptChar, isWordChar, specAllowedChar, Bool.or_eq_true,
    decide_eq_true_eq]
  omega

/-- Counterexample to C4 as stated: the codepoint 233 (the letter with
acute accent) lies outside the claim's set `[A-Za-z0-9_.)( -]`, yet the
substitution keeps it unchanged instead of replacing it with `_`,
because Python 3's `\w` in the source regex is Unicode-aware and matches
it. -/
theorem sanitize_keeps_nonascii_wordchar :
    specAllowedChar 233 = false
    ∧ reSubInvalid [233] = [233]
    ∧ reSubInvalid [233] ≠ [95] := by
  refine ⟨rfl, rfl, by decide⟩

/-- C4 (amended): for every ASCII character of the name, sanitization in
`GetFilepath` replaces exactly the characters outside
`[A-Za-z0-9_.)( -]` with `_` and leaves the characters inside the class
unchanged, preserving the length; the filename built by `GetFilepath`
starts with exactly that sanitized name (the extension, if any, is
appended after it).  Non-ASCII Unicode word characters are kept by the
regex even though they lie outside that set. -/
theorem getFilepath_sanitizes_ascii :
    ∀ s : Str, (∀ c ∈ s, c < 128) →
      (reSubInvalid s).length = s.length
      ∧ reSubInvalid s = s.map (fun c => if specAllowedChar c then c else 95)
      ∧ ∀ (pt : PathType) (f : FOptions),
          (resolvedFilename pt s f).take s.length
            = s.map (fun c => if specAllowedChar c then c else 95) := by
  intro s hascii
  have hlen : (reSubInvalid s).length = s.length := by
    simp [reSubInvalid]
  have hmap : reSubInvalid s = s.map (fun c => if specAllowedChar c then c else 95) := by
    apply List.map_congr_left
    intro c hc
    rw [isKeptChar_eq_specAllowedChar_of_ascii c (hascii c hc)]
  refine ⟨hlen, hmap, ?_⟩
  intro pt f
  unfold resolvedFilename
  dsimp only
  split
  · rw [← hlen, List.take_left, hmap]
  · rw [← hlen, List.take_length, hmap]

/-- Witness for C4 (amended): the ASCII name "a$b" sanitizes to "a_b",
with the dollar replaced and the letters untouched. -/
theorem getFilepath_sanitizes_ascii_witness :
    (∀ c ∈ [97, 36, 98], c < 128)
    ∧ (reSubInvalid [97, 36, 98]).length = 3
    ∧ reSubInvalid [97, 36, 98]
        = List.map (fun c => if specAllowedChar c then c else 95) [97, 36, 98]
    ∧ reSubInvalid [97, 36, 98] = [97, 95, 98] := by
  have h := getFilepath_sanitizes_ascii [97, 36, 98] (by decide)
  exact ⟨by decide, h.1, h.2.1, by decide⟩

/-- C5: calling `GetFilepath` with a sequence of segments raises
`TypeError` inside `re.sub` (the sequence test comes after the
substitution and inspects its result, so the join branch is dead code). -/
theorem getFilepath_seq_raises :
    GetFilepath .models (.seq [[102, 111, 111], [98, 97, 114]]) {}
      = .error .typeError := rfl

/-- C6: with a nonempty category extension, `GetFilepath` appends the
extension exactly when `preserveExtTemp` is unset or the sanitized name
has no dot; the flag is reset on every call, so a following call with
the returned options appends the extension again. -/
theorem getFilepath_extension_policy :
    ∀ (pt : PathType) (s : Str) (f : FOptions), f.exts pt ≠ [] →
      (f.preserveExtTemp = true → extsep ∈ reSubInvalid s →
          resolvedFilename pt s f = reSubInvalid s)
      ∧ ((f.preserveExtTemp = false ∨ extsep ∉ reSubInvalid s) →
          resolvedFilename pt s f = reSubInvalid s ++ extsep :: f.exts pt)
      ∧ (getFilepathStr pt s f).2.preserveExtTemp = false
      ∧ (∀ (pt2 : PathType) (s2 : Str), f.exts pt2 ≠ [] →
          resolvedFilename pt2 s2 (getFilepathStr pt s f).2
            = reSubInvalid s2 ++ extsep :: f.exts pt2) := by
  intro pt s f hext
  refine ⟨?_, ?_, rfl, ?_⟩
  · intro hpres hdot
    unfold resolvedFilename
    dsimp only
    rw [if_neg]
    intro hcond
    rcases hcond.2 with h | h
    · rw [hpres] at h
      simp at h
    · exact h hdot
  · intro hor
    unfold resolvedFilename
    dsimp only
    rw [if_pos ⟨hext, hor⟩]
  · intro pt2 s2 hext2
    unfold resolvedFilename
    dsimp only
    rw [if_pos ⟨hext2, Or.inl rfl⟩]
    rfl

/-- `mkParentDirs` never touches the file set. -/
theorem mkParentDirs_files (dir : List Str) (fs : FSState) :
    (mkParentDirs dir fs).files = fs.files := by
  unfold mkParentDirs
  split
  · rfl
  · split <;> rfl

/-- `CheckFilepath` never touches the file set (it can only create a
directory). -/
theorem CheckFilepath_files (p : List Str) (f : FOptions) (fs : FSState) :
    ((CheckFilepath p f fs).2).files = fs.files := by
  unfold CheckFilepath
  dsimp only
  split <;> exact mkParentDirs_files _ _

/-- C7: `CheckFilepath` returns `False` exactly when the target file
exists and `fileOverwrite` is off (in particular a directory-creation
failure alone never yields `False`), it performs no write itself, and the
export loop leaves the file set unchanged whenever its write flag is
`false`. -/
theorem checkFilepath_gate :
    (∀ (p : List Str) (f : FOptions) (fs : FSState),
        (CheckFilepath p f fs).1 = false ↔ (p ∈ fs.files ∧ f.fileOverwrite = false))
    ∧ (∀ (p : List Str) (f : FOptions) (fs : FSState),
        ((CheckFilepath p f fs).2).files = fs.files)
    ∧ (∀ (scene : List SceneObj) (lodsets : List (Int × Str)) (o : ExpOptions)
        (st : ExpState) (u : UnitModel),
        (exportModelStep scene lodsets o st u).2 = false →
        ((exportModelStep scene lodsets o st u).1).fs.files = st.fs.files) := by
  refine ⟨?_, CheckFilepath_files, ?_⟩
  · intro p f fs
    unfold CheckFilepath
    simp only [mkParentDirs_files]
    split
    · exact iff_of_true rfl (by assumption)
    · exact iff_of_false (by simp) (by assumption)
  · intro scene lodsets o st u
    unfold exportModelStep
    dsimp only
    split
    · split
      · split
        · intro h
          exact absurd h (by simp)
        · intro _
          exact CheckFilepath_files _ _ _
      · intro _
        rfl
    · intro _
      rfl

/-- Folding `Delete` over a list of names removes exactly the entries
whose key is in the list. -/
theorem ErrorsMem.delete_foldl (names : List Str) :
    ∀ m : ErrorsMem,
      (names.foldl (fun acc n => acc.Delete n) m).errors
        = m.errors.filter (fun p => p.1 ∉ names) := by
  induction names with
  | nil =>
    intro m
    simp
  | cons n ns ih =>
    intro m
    rw [List.foldl_cons, ih]
    show ((m.Delete n).errors).filter _ = _
    simp only [ErrorsMem.Delete]
    rw [List.filter_filter]
    apply List.filter_congr
    intro p _
    simp only [List.mem_cons, not_or, decide_not, Bool.and_comm]
    simp [Bool.and_comm]

/-- C9: with the dict invariant (unique keys), `Cleanup` removes exactly
the categories with empty buckets, leaving the others unchanged; `Clear`
empties both the bucket map and the intern table. -/
theorem errorsMem_cleanup_clear :
    (∀ m : ErrorsMem, (m.errors.map Prod.fst).Nodup →
        m.Cleanup.errors = m.errors.filter (fun p => p.2.isEmpty = false))
    ∧ (∀ m : ErrorsMem, m.Clear.errors = [] ∧ m.Clear.seconds = []) := by
  constructor
  · intro m hnd
    unfold ErrorsMem.Cleanup
    rw [ErrorsMem.delete_foldl]
    apply List.filter_congr
    intro p hp
    rw [decide_eq_decide]
    constructor
    · intro hnotin
      cases he : p.2.isEmpty
      · rfl
      · exact absurd (List.mem_map_of_mem Prod.fst
          (List.mem_filter.mpr ⟨hp, by simp [he]⟩)) hnotin
    · intro hne hin
      obtain ⟨q, hqmem, hqfst⟩ := List.mem_map.mp hin
      have hq := List.mem_filter.mp hqmem
      have hqp : q = p := List.inj_on_of_nodup_map hnd hq.1 hp hqfst
      rw [hqp] at hq
      rw [hne] at hq
      simp at hq
  · intro m
    exact ⟨rfl, rfl⟩

/-- The LOD-set counter never decreases along a run. -/
theorem runLodOps_counter_mono (ops : List LodOp) :
    ∀ w : World, w.lodset_counter ≤ (runLodOps w ops).1.lodset_counter := by
  induction ops with
  | nil =>
    intro w
    exact Nat.le_refl _
  | cons op rest ih =>
    intro w
    cases op with
    | create => exact Nat.le_trans (Nat.le_succ _) (ih (OpCreateLodSet w))
    | delete i => exact ih (OpDeleteLodSet i w)

/-- Every id issued during a run is strictly above the starting counter. -/
theorem runLodOps_issued_gt (ops : List LodOp) :
    ∀ (w : World) (id : Nat), id ∈ (runLodOps w ops).2 →
      w.lodset_counter < id := by
  induction ops with
  | nil =>
    intro w id h
    simp [runLodOps] at h
  | cons op rest ih =>
    intro w id h
    cases op with
    | create =>
      rcases List.mem_cons.mp h with h | h
      · rw [h]
        exact Nat.lt_succ_self _
      · exact Nat.lt_trans (Nat.lt_succ_self _) (ih (OpCreateLodSet w) id h)
    | delete i => exact ih (OpDeleteLodSet i w) id h

/-- The ids issued during a run are strictly increasing. -/
theorem runLodOps_issued_sorted (ops : List LodOp) :
    ∀ w : World, ((runLodOps w ops).2).Sorted (· < ·) := by
  induction ops with
  | nil =>
    intro w
    exact List.sorted_nil
  | cons op rest ih =>
    intro w
    cases op with
    | create =>
      rw [show (runLodOps w (.create :: rest)).2
            = (w.lodset_counter + 1) :: (runLodOps (OpCreateLodSet w) rest).2 from rfl]
      rw [List.sorted_cons]
      refine ⟨fun b hb => ?_, ih (OpCreateLodSet w)⟩
      exact runLodOps_issued_gt rest (OpCreateLodSet w) b hb
    | delete i => exact ih (OpDeleteLodSet i w)

/-- The bound "every current id is at most the counter" is preserved. -/
theorem runLodOps_bound (ops : List LodOp) :
    ∀ w : World, (∀ id ∈ w.lodsets, id ≤ w.lodset_counter) →
      ∀ id ∈ (runLodOps w ops).1.lodsets, id ≤ (runLodOps w ops).1.lodset_counter := by
  induction ops with
  | nil =>
    intro w hw
    exact hw
  | cons op rest ih =>
    intro w hw
    cases op with
    | create =>
      apply ih (OpCreateLodSet w)
      intro id hid
      rcases List.mem_append.mp hid with h | h
      · exact Nat.le_trans (hw id h) (Nat.le_succ _)
      · rw [List.mem_singleton.mp h]
        exact Nat.le_refl _
    | delete i =>
      apply ih (OpDeleteLodSet i w)
      intro id hid
      exact hw id (List.eraseIdx_subset _ _ hid)

/-- Distinctness of the current set ids is preserved. -/
theorem runLodOps_nodup (ops : List LodOp) :
    ∀ w : World, (∀ id ∈ w.lodsets, id ≤ w.lodset_counter) →
      w.lodsets.Nodup → (runLodOps w ops).1.lodsets.Nodup := by
  induction ops with
  | nil =>
    intro w _ hnd
    exact hnd
  | cons op rest ih =>
    intro w hw hnd
    cases op with
    | create =>
      apply ih (OpCreateLodSet w)
      · intro id hid
        rcases List.mem_append.mp hid with h | h
        · exact Nat.le_trans (hw id h) (Nat.le_succ _)
        · rw [List.mem_singleton.mp h]
          exact Nat.le_refl _
      · show (w.lodsets ++ [w.lodset_counter + 1]).Nodup
        rw [List.nodup_append]
        refine ⟨hnd, List.nodup_singleton _, fun a ha hb => ?_⟩
        rw [List.mem_singleton.mp hb] at ha
        exact absurd (hw _ ha) (Nat.not_succ_le_self _)
    | delete i =>
      apply ih (OpDeleteLodSet i w)
      · intro id hid
        exact hw id (List.eraseIdx_subset _ _ hid)
      · exact hnd.sublist (List.eraseIdx_sublist _ _)

/-- C8: from any world satisfying the session invariant (current ids at
most the counter, pairwise distinct), any sequence of create and delete
operations keeps the counter monotone, issues strictly increasing fresh
ids, never reissues an existing or deleted id (the initial ids together
with all issued ids are pairwise distinct), and keeps the current set
ids distinct. -/
theorem lodset_id_monotone :
    ∀ (ops : List LodOp) (w : World),
      (∀ id ∈ w.lodsets, id ≤ w.lodset_counter) → w.lodsets.Nodup →
        w.lodset_counter ≤ (runLodOps w ops).1.lodset_counter
        ∧ ((runLodOps w ops).2).Sorted (· < ·)
        ∧ (w.lodsets ++ (runLodOps w ops).2).Nodup
        ∧ (runLodOps w ops).1.lodsets.Nodup := by
  intro ops w hw hnd
  refine ⟨runLodOps_counter_mono ops w, runLodOps_issued_sorted ops w, ?_,
    runLodOps_nodup ops w hw hnd⟩
  rw [List.nodup_append]
  refine ⟨hnd, (runLodOps_issued_sorted ops w).nodup, fun a ha hb => ?_⟩
  exact absurd (runLodOps_issued_gt ops w a hb) (Nat.not_lt.mpr (hw a ha))

/-- Witness for C8: a concrete session (create, delete the set, create
again) from a fresh world; the hypotheses hold and the run issues the
distinct ids 1 and 2. -/
theorem lodset_id_monotone_witness :
    (∀ id ∈ (World.mk 0 []).lodsets, id ≤ (World.mk 0 []).lodset_counter)
    ∧ (World.mk 0 []).lodsets.Nodup
    ∧ ((World.mk 0 []).lodset_counter
          ≤ (runLodOps (World.mk 0 []) [.create, .delete 0, .create]).1.lodset_counter
        ∧ ((runLodOps (World.mk 0 []) [.create, .delete 0, .create]).2).Sorted (· < ·)
        ∧ ((World.mk 0 []).lodsets
            ++ (runLodOps (World.mk 0 []) [.create, .delete 0, .create]).2).Nodup
        ∧ (runLodOps (World.mk 0 []) [.create, .delete 0, .create]).1.lodsets.Nodup)
    ∧ (runLodOps (World.mk 0 []) [.create, .delete 0, .create]).2 = [1, 2] := by
  refine ⟨by decide, by decide, lodset_id_monotone _ _ (by decide) (by decide), by decide⟩

/-- Creation preserves the registration invariant: every sentinel-marked
object linked in the scene is registered in `tempObjects`. -/
theorem createTempObjects_registered (specs : List Bool) :
    ∀ s : SceneState,
      (∀ ob ∈ s.objs, ob.lodsetID = -2 → ob.id ∈ s.tempObjects) →
      ∀ ob ∈ (createTempObjects specs s).objs, ob.lodsetID = -2 →
        ob.id ∈ (createTempObjects specs s).tempObjects := by
  induction specs with
  | nil =>
    intro s hs
    exact hs
  | cons hasMesh rest ih =>
    intro s hs
    cases hasMesh with
    | false => exact ih s hs
    | true =>
      apply ih
      intro ob hob hsent
      rcases List.mem_append.mp hob with h | h
      · exact List.mem_append_left _ (hs ob h hsent)
      · rw [List.mem_singleton.mp h]
        exact List.mem_append_right _ (List.mem_singleton.mpr rfl)

/-- Counterexample to C2 as stated: a run in which a pipeline stage
raises after one temporary LOD object was created and linked (for
example a `KeyError` from the unguarded `bpy.data.images[...]` lookup in
the texture loop).  `ExecuteAddon` does not wrap the export in
`try`/`finally`, so the exception propagates, the removal loop never
runs, and one sentinel-marked object stays linked in the scene with the
`tempObjects` list not cleared. -/
theorem executeAddon_leaks_on_raise :
    (executeAddon true [true] true (SceneState.mk [] [] 0)).1 = .error ()
    ∧ sentinelCount (executeAddon true [true] true (SceneState.mk [] [] 0)).2 = 1
    ∧ (executeAddon true [true] true (SceneState.mk [] [] 0)).2.tempObjects = [0] := by
  refine ⟨rfl, rfl, rfl⟩

/-- C2 (amended): after any run through `ExecuteAddon` in which
`ExecuteUrhoExport` returns normally — whether it reports success or
failure by its boolean — every temporary LOD object is unlinked and the
`tempObjects` list is cleared, so no sentinel-marked object remains
linked in a scene that had none before the run. -/
theorem executeAddon_cleanup :
    ∀ (validateOk : Bool) (specs : List Bool) (stageRaises : Bool)
      (s : SceneState) (b : Bool),
      (∀ ob ∈ s.objs, ob.lodsetID ≠ -2) →
      (executeUrhoExport validateOk specs stageRaises s).1 = .ok b →
      sentinelCount (executeAddon validateOk specs stageRaises s).2 = 0
      ∧ (executeAddon validateOk specs stageRaises s).2.tempObjects = [] := by
  intro validateOk specs stageRaises s b hclean hok
  have hreg : ∀ ob ∈ (executeUrhoExport validateOk specs stageRaises s).2.objs,
      ob.lodsetID = -2 →
      ob.id ∈ (executeUrhoExport validateOk specs stageRaises s).2.tempObjects := by
    unfold executeUrhoExport
    split
    · intro ob hob hsent
      exact absurd hsent (hclean ob hob)
    · dsimp only
      split
      · exact createTempObjects_registered specs s
          (fun ob hob hsent => absurd hsent (hclean ob hob))
      · exact createTempObjects_registered specs s
          (fun ob hob hsent => absurd hsent (hclean ob hob))
  unfold executeAddon
  rcases hr : executeUrhoExport validateOk specs stageRaises s with ⟨r, s1⟩
  rcases r with e | bv
  · rw [hr] at hok
    exact absurd hok (by simp)
  · rw [hr] at hreg
    dsimp only
    constructor
    · unfold sentinelCount removeTempObjects
      dsimp only
      rw [List.length_eq_zero]
      rw [List.filter_eq_nil_iff]
      intro ob hob
      have hmem := List.mem_filter.mp hob
      intro hsent
      have hsent2 : ob.lodsetID = -2 := by
        simpa using hsent
      have hin := hreg ob hmem.1 hsent2
      have hnotin := hmem.2
      simp at hnotin
      exact hnotin hin
    · rfl

/-- Witness for C2 (amended): a concrete run that returns normally from a
scene with one ordinary object and one LOD entry; no sentinel object
remains and the temp list is cleared. -/
theorem executeAddon_cleanup_witness :
    (∀ ob ∈ (SceneState.mk [BObj.mk 7 1] [] 8).objs, ob.lodsetID ≠ -2)
    ∧ (executeUrhoExport true [true] false (SceneState.mk [BObj.mk 7 1] [] 8)).1 = .ok true
    ∧ (sentinelCount (executeAddon true [true] false (SceneState.mk [BObj.mk 7 1] [] 8)).2 = 0
        ∧ (executeAddon true [true] false (SceneState.mk [BObj.mk 7 1] [] 8)).2.tempObjects = []) :=
  ⟨by decide, by rfl,
    executeAddon_cleanup true [true] false (SceneState.mk [BObj.mk 7 1] [] 8) true
      (by decide) (by rfl)⟩

/-- The export step only ever appends to `processedMeshes`. -/
theorem exportModelStep_processed_mono (scene : List SceneObj)
    (lodsets : List (Int × Str)) (o : ExpOptions) (st : ExpState)
    (u : UnitModel) (x : Str) :
    x ∈ st.processed → x ∈ (exportModelStep scene lodsets o st u).1.processed := by
  intro hx
  unfold exportModelStep
  dsimp only
  split
  · split
    · split
      · exact List.mem_append_left _ hx
      · exact hx
    · exact hx
  · exact hx

/-- The export loop only ever appends to `processedMeshes`. -/
theorem runExport_processed_mono (scene : List SceneObj)
    (lodsets : List (Int × Str)) (o : ExpOptions) (us : List UnitModel) :
    ∀ (st : ExpState) (x : Str), x ∈ st.processed →
      x ∈ (runExport scene lodsets o st us).1.processed := by
  induction us with
  | nil =>
    intro st x hx
    exact hx
  | cons u rest ih =>
    intro st x hx
    exact ih ((exportModelStep scene lodsets o st u).1) x
      (exportModelStep_processed_mono scene lodsets o st u x hx)

/-- A step that writes records its resolved mesh name in
`processedMeshes`. -/
theorem exportModelStep_writes_mem (scene : List SceneObj)
    (lodsets : List (Int × Str)) (o : ExpOptions) (st : ExpState)
    (u : UnitModel) :
    (exportModelStep scene lodsets o st u).2 = true →
    resolvedMeshName scene lodsets o u.name
      ∈ (exportModelStep scene lodsets o st u).1.processed := by
  unfold exportModelStep
  dsimp only
  split
  · split
    · split
      · intro _
        exact List.mem_append_right _ (List.mem_singleton.mpr rfl)
      · intro h
        exact absurd h (by simp)
    · intro h
      exact absurd h (by simp)
  · intro h
    exact absurd h (by simp)

/-- When the object was found, the unit has no LODs and the resolved name
is already processed, the gate skips the write. -/
theorem exportModelStep_skips (scene : List SceneObj)
    (lodsets : List (Int × Str)) (o : ExpOptions) (st : ExpState)
    (u : UnitModel) :
    resolvedObj scene lodsets o u.name ≠ none →
    u.hasLODs = false →
    resolvedMeshName scene lodsets o u.name ∈ st.processed →
    (exportModelStep scene lodsets o st u).2 = false := by
  intro hobj hlod hmem
  unfold exportModelStep
  dsimp only
  rw [if_neg]
  · intro hcond
    rcases hcond with h | h
    · exact hobj h
    · rcases h.2 with h2 | h2
      · exact h2 hmem
      · rw [hlod] at h2
        simp at h2

/-- C1: in one export run, if two units both resolve their scene object,
resolve to the same mesh name and neither has LODs, then after the first
one writes the model file the second one's write is skipped (the name is
in the processed-mesh set, which only grows along the run); and a unit
whose `hasLODs` flag is set writes its geometry (given geometries and a
passing `CheckFilepath`) even when its resolved mesh name is already in
the processed-mesh set. -/
theorem export_dedup :
    (∀ (scene : List SceneObj) (lodsets : List (Int × Str)) (o : ExpOptions)
        (st0 : ExpState) (pre : List UnitModel) (ui : UnitModel)
        (mid : List UnitModel) (uj : UnitModel),
      resolvedObj scene lodsets o ui.name ≠ none →
      resolvedObj scene lodsets o uj.name ≠ none →
      resolvedMeshName scene lodsets o ui.name
        = resolvedMeshName scene lodsets o uj.name →
      ui.hasLODs = false → uj.hasLODs = false →
      (exportModelStep scene lodsets o (runExport scene lodsets o st0 pre).1 ui).2 = true →
      (exportModelStep scene lodsets o
        (runExport scene lodsets o
          (exportModelStep scene lodsets o (runExport scene lodsets o st0 pre).1 ui).1
          mid).1 uj).2 = false)
    ∧ (∀ (scene : List SceneObj) (lodsets : List (Int × Str)) (o : ExpOptions)
        (st : ExpState) (u : UnitModel),
      resolvedObj scene lodsets o u.name ≠ none →
      resolvedIsEmpty scene lodsets o u.name = false →
      u.hasLODs = true →
      resolvedMeshName scene lodsets o u.name ∈ st.processed →
      0 < u.geometries →
      (CheckFilepath
        (getFilepathStr .models (resolvedMeshName scene lodsets o u.name) st.fOptions).1.1
        (getFilepathStr .models (resolvedMeshName scene lodsets o u.name) st.fOptions).2
        st.fs).1 = true →
      (exportModelStep scene lodsets o st u).2 = true) := by
  constructor
  · intro scene lodsets o st0 pre ui mid uj hoi hoj hsame hli hlj hwi
    apply exportModelStep_skips scene lodsets o _ uj hoj hlj
    rw [← hsame]
    apply runExport_processed_mono
    exact exportModelStep_writes_mem scene lodsets o _ ui hwi
  · intro scene lodsets o st u hobj hemp hlod hmem hgeom hchk
    unfold exportModelStep
    dsimp only
    rw [if_pos (Or.inr ⟨hemp, Or.inr hlod⟩), if_pos hgeom]
    split
    · rfl
    · exact absurd hchk (by assumption)

/-- C10: when the object lookup for a unit raises (name not among the
scene objects), the `except` branch sets the mesh name to the unit's own
name and `isEmpty` to `False` without raising, and the write gate passes
unconditionally (`obj == None`), so the geometry write is attempted —
gated only by having geometries and `CheckFilepath` — even when that
name is already in the processed-mesh set and the unit has no LODs. -/
theorem lookup_miss_bypasses_dedup :
    ∀ (scene : List SceneObj) (lodsets : List (Int × Str)) (o : ExpOptions)
      (st : ExpState) (u : UnitModel),
      scene.find? (fun ob => ob.name = u.name) = none →
      resolveModel scene lodsets o u.name = (none, u.name, false)
      ∧ (u.hasLODs = false → u.name ∈ st.processed → 0 < u.geometries →
          (CheckFilepath (getFilepathStr .models u.name st.fOptions).1.1
            (getFilepathStr .models u.name st.fOptions).2 st.fs).1 = true →
          (exportModelStep scene lodsets o st u).2 = true) := by
  intro scene lodsets o st u hmiss
  have hres : resolveModel scene lodsets o u.name = (none, u.name, false) := by
    unfold resolveModel
    rw [hmiss]
  refine ⟨hres, ?_⟩
  intro _ _ hgeom hchk
  unfold exportModelStep
  dsimp only
  rw [hres]
  dsimp only
  rw [if_pos (Or.inl rfl), if_pos hgeom]
  split
  · rfl
  · exact absurd hchk (by assumption)

/-- Sample scene for the export-loop witnesses: one mesh object named
"n" with no LOD set. -/
def wScene : List SceneObj := [SceneObj.mk [110] false false 0 [100]]

/-- Sample options: wire-as-empty off, mesh name derived from the
object. -/
def wOpts : ExpOptions := ExpOptions.mk false true

/-- Sample unit without LODs resolving to "n". -/
def wUnitA : UnitModel := UnitModel.mk [110] false 1

/-- Sample unit with LODs resolving to "n". -/
def wUnitB : UnitModel := UnitModel.mk [110] true 1

/-- Fresh export state. -/
def wState0 : ExpState := ExpState.mk {} [] {}

/-- Export state whose processed-mesh set already holds "n". -/
def wStateP : ExpState := ExpState.mk {} [[110]] {}

/-- Witness for C1: exporting the same no-LOD unit twice writes once (the
second write flag is false), and the LOD unit writes even though "n" is
already in the processed set. -/
theorem export_dedup_witness :
    (resolvedObj wScene [] wOpts wUnitA.name ≠ none
      ∧ (exportModelStep wScene [] wOpts (runExport wScene [] wOpts wState0 []).1 wUnitA).2 = true
      ∧ (exportModelStep wScene [] wOpts
          (runExport wScene [] wOpts
            (exportModelStep wScene [] wOpts (runExport wScene [] wOpts wState0 []).1 wUnitA).1
            []).1 wUnitA).2 = false)
    ∧ (resolvedMeshName wScene [] wOpts wUnitB.name ∈ wStateP.processed
      ∧ (exportModelStep wScene [] wOpts wStateP wUnitB).2 = true) := by
  refine ⟨⟨by decide, by decide, ?_⟩, ⟨by decide, ?_⟩⟩
  · exact export_dedup.1 wScene [] wOpts wState0 [] wUnitA [] wUnitA
      (by decide) (by decide) rfl rfl rfl (by decide)
  · exact export_dedup.2 wScene [] wOpts wStateP wUnitB
      (by decide) (by decide) rfl (by decide) (by decide) (by decide)

/-- Witness for C10: on an empty scene the lookup misses, the unit falls
back to its own name and writes even though the name is already
processed and it has no LODs. -/
theorem lookup_miss_bypasses_dedup_witness :
    (List.find? (fun ob => ob.name = wUnitA.name) ([] : List SceneObj) = none)
    ∧ resolveModel [] [] wOpts wUnitA.name = (none, wUnitA.name, false)
    ∧ (exportModelStep [] [] wOpts wStateP wUnitA).2 = true := by
  refine ⟨rfl, ?_, ?_⟩
  · exact (lookup_miss_bypasses_dedup [] [] wOpts wStateP wUnitA rfl).1
  · exact (lookup_miss_bypasses_dedup [] [] wOpts wStateP wUnitA rfl).2
      rfl (by decide) (by decide) (by decide)

/-- Witness for C6: the spec's example — resolving "foo.bar" for the
MODELS category ("mdl") with `preserveExtTemp` set keeps "foo.bar"
unchanged, and the next call with the returned options appends the
extension again. -/
theorem getFilepath_extension_policy_witness :
    ({ preserveExtTemp := true : FOptions }).exts .models ≠ []
    ∧ ({ preserveExtTemp := true : FOptions }).preserveExtTemp = true
    ∧ extsep ∈ reSubInvalid [102, 111, 111, 46, 98, 97, 114]
    ∧ resolvedFilename .models [102, 111, 111, 46, 98, 97, 114]
        { preserveExtTemp := true } = reSubInvalid [102, 111, 111, 46, 98, 97, 114]
    ∧ resolvedFilename .models [102, 111, 111]
        (getFilepathStr .models [102, 111, 111, 46, 98, 97, 114]
          { preserveExtTemp := true }).2
        = reSubInvalid [102, 111, 111]
          ++ extsep :: ({ preserveExtTemp := true : FOptions }).exts .models := by
  refine ⟨by decide, rfl, by decide, ?_, ?_⟩
  · exact (getFilepath_extension_policy .models [102, 111, 111, 46, 98, 97, 114]
      { preserveExtTemp := true } (by decide)).1 rfl (by decide)
  · exact (getFilepath_extension_policy .models [102, 111, 111, 46, 98, 97, 114]
      { preserveExtTemp := true } (by decide)).2.2.2 .models [102, 111, 111] (by decide)

/-- Witness for C7: a pre-existing file with overwrite off yields `False`
with the file set untouched, and a skipped export step (dedup-gated)
leaves the file set unchanged. -/
theorem checkFilepath_gate_witness :
    ((CheckFilepath [[114], [102]] {} (FSState.mk [] [[[114], [102]]] false)).1 = false)
    ∧ ((CheckFilepath [[114], [102]] {} (FSState.mk [] [[[114], [102]]] false)).2.files
        = [[[114], [102]]])
    ∧ ((exportModelStep wScene [] wOpts wStateP wUnitA).2 = false
        ∧ (exportModelStep wScene [] wOpts wStateP wUnitA).1.fs.files
            = wStateP.fs.files) := by
  refine ⟨(checkFilepath_gate.1 _ _ _).mpr ⟨by decide, rfl⟩, ?_,
    ⟨by decide, checkFilepath_gate.2.2 wScene [] wOpts wStateP wUnitA (by decide)⟩⟩
  rw [checkFilepath_gate.2.1]

/-- Witness for C9: categories "A" (non-empty bucket) and "B" (empty
bucket); `Cleanup` keeps exactly "A", and `Clear` empties both tables. -/
theorem errorsMem_cleanup_clear_witness :
    ((ErrorsMem.mk [([65], [(0, 0)]), ([66], [])] [[79]]).errors.map Prod.fst).Nodup
    ∧ (ErrorsMem.mk [([65], [(0, 0)]), ([66], [])] [[79]]).Cleanup.errors
        = [([65], [(0, 0)])]
    ∧ ((ErrorsMem.mk [([65], [(0, 0)]), ([66], [])] [[79]]).Clear.errors = []
        ∧ (ErrorsMem.mk [([65], [(0, 0)]), ([66], [])] [[79]]).Clear.seconds = []) := by
  refine ⟨by decide, ?_, errorsMem_cleanup_clear.2 _⟩
  rw [errorsMem_cleanup_clear.1 _ (by decide)]
  decide

end Urho
